import Mathlib

/-!
Verification of the fake-quantization layers in
`python/paddle/fluid/contrib/slim/quantization/imperative/quant_nn.py`.

The Python layers dispatch the numeric work to framework kernels
(`core.ops.fake_quantize_dequantize_abs_max`,
`core.ops.fake_quantize_dequantize_moving_average_abs_max`,
`core.ops.fake_channel_wise_quantize_dequantize_abs_max`,
`core.ops.moving_average_abs_max_scale`) whose implementations are not part
of these sources; those kernels are modelled from the specification, as
marked on each definition.  Construction-time validation, forward-pass
composition order and the stop-gradient marking of the scale parameters are
embedded directly from the Python source.  Real-valued tensors are modelled
over `ℚ`.
-/

namespace QuantNN

/-- Maximum of the absolute values of a list of rationals (`max(abs(x))`
over all elements; `0` for the empty tensor). -/
def maxAbs (l : List ℚ) : ℚ :=
  l.foldl (fun m a => max m |a|) 0

/-- The representable integer range for a bit length `b`:
`range = 2^(b-1) - 1` (127 for `b = 8`). -/
def qRange (b : ℕ) : ℤ :=
  2 ^ (b - 1) - 1

/-- Elementwise clamp of `x` into `[lo, hi]`. -/
def clamp (lo hi x : ℚ) : ℚ :=
  max lo (min hi x)

/-- Executable rounding to the nearest integer on `ℚ` (halves up), agreeing
with Mathlib's `round` by `roundQ_eq`. -/
def roundQ (x : ℚ) : ℤ :=
  Rat.floor (x + 1 / 2)

theorem roundQ_eq (x : ℚ) : roundQ x = round x := by
  rw [roundQ, round_eq, Rat.floor_def', Rat.floor_def]

/-- Modelled from the spec: the elementwise transform of the
`fake_quantize_dequantize_abs_max` kernel, which is dispatched to by
`FakeQuantAbsMax.forward` but is not among these sources.
`x_out = round(clamp(x / scale, -1, 1) * range) * scale / range`, with the
zero-scale guard returning `0` for a zero divisor. -/
def fakeQuantDequant (s : ℚ) (b : ℕ) (x : ℚ) : ℚ :=
  if s = 0 then 0
  else (roundQ (clamp (-1) 1 (x / s) * ((qRange b : ℤ) : ℚ)) : ℚ) * s / ((qRange b : ℤ) : ℚ)

/-- Modelled from the spec: `FakeQuantAbsMax.forward` via the
`fake_quantize_dequantize_abs_max` kernel: the scale is the instantaneous
`max(abs(input))` and every element is fake-quantize-dequantized with it. -/
def fakeQuantAbsMaxForward (b : ℕ) (x : List ℚ) : List ℚ :=
  x.map (fakeQuantDequant (maxAbs x) b)

/-- Claim C1: with `s = max(abs(x)) > 0` and bit length `b`,
`FakeQuantAbsMax.forward` returns a tensor of the same shape as `x` whose
`i`-th element is `round(clamp(x_i / s, -1, 1) * range) * s / range` with
`range = 2^(b-1) - 1`; in particular for `x = [-2, 0, 3, -1]` and `b = 8`
the output is `[-85*3/127, 0, 3, -42*3/127]`. -/
theorem fakeQuantAbsMax_forward_spec :
    (∀ (b : ℕ) (x : List ℚ), 0 < maxAbs x →
      (fakeQuantAbsMaxForward b x).length = x.length ∧
      ∀ (i : ℕ) (hi : i < x.length) (hi2 : i < (fakeQuantAbsMaxForward b x).length),
        (fakeQuantAbsMaxForward b x).get ⟨i, hi2⟩ =
          (round (clamp (-1) 1 (x.get ⟨i, hi⟩ / maxAbs x) * ((qRange b : ℤ) : ℚ)) : ℚ)
            * maxAbs x / ((qRange b : ℤ) : ℚ)) ∧
    fakeQuantAbsMaxForward 8 [-2, 0, 3, -1] = [-85 * 3 / 127, 0, 3, -42 * 3 / 127] := by
  constructor
  · intro b x h
    refine ⟨by simp [fakeQuantAbsMaxForward], ?_⟩
    intro i hi hi2
    simp [fakeQuantAbsMaxForward, List.get_eq_getElem, List.getElem_map,
      fakeQuantDequant, h.ne', roundQ_eq]
  · norm_num [fakeQuantAbsMaxForward, fakeQuantDequant, maxAbs, clamp, qRange,
      roundQ_eq, round_eq, max_def, min_def]

/-- Concrete instantiation of claim C1's general part at `x = [-2, 0, 3, -1]`,
`b = 8` (the hypothesis `0 < max(abs(x))` holds since `max(abs(x)) = 3`). -/
theorem fakeQuantAbsMax_forward_spec_witness :
    0 < maxAbs [-2, 0, 3, -1] ∧
    (fakeQuantAbsMaxForward 8 [-2, 0, 3, -1]).length = ([-2, 0, 3, -1] : List ℚ).length :=
  ⟨by decide, (fakeQuantAbsMax_forward_spec.1 8 [-2, 0, 3, -1] (by decide)).1⟩

/-- The persistent state of a moving-average estimator: the scale, the
moving-average accumulator and the normalizer (the `_scale`, `_accum` and
`_state` parameters of the Python layers). -/
structure MAState where
  scale : ℚ
  accum : ℚ
  state : ℚ
deriving DecidableEq, Repr

/-- Initial state of `FakeQuantMovingAverage` from its `__init__`:
`scale` is initialized with `Constant(0.001)`, `state` and `accum` with
`Constant(1)`. -/
def initFakeQuantMovingAverage : MAState :=
  { scale := 1 / 1000, accum := 1, state := 1 }

/-- Modelled from the spec: the training-mode scale update of the
`fake_quantize_dequantize_moving_average_abs_max` kernel, which is
dispatched to by `FakeQuantMovingAverage.forward` but is not among these
sources.  `new_accum = moving_rate * accum + max(abs(x))`,
`new_state = moving_rate * state + 1`, `new_scale = new_accum / new_state`. -/
def movingAverageUpdate (rate : ℚ) (st : MAState) (x : List ℚ) : MAState :=
  let currentMax := maxAbs x
  let newAccum := rate * st.accum + currentMax
  let newState := rate * st.state + 1
  { scale := newAccum / newState, accum := newAccum, state := newState }

/-- Modelled from the spec: the scale-estimation part of
`FakeQuantMovingAverage.forward` (the kernel is not among these sources).
In training mode the state is updated and the new scale returned; in
evaluation mode (`is_test`) the persisted scale is returned and nothing is
mutated. -/
def movingAverageEstimatorUpdate (rate : ℚ) (training : Bool) (st : MAState)
    (x : List ℚ) : MAState × ℚ :=
  if training then
    let st2 := movingAverageUpdate rate st x
    (st2, st2.scale)
  else (st, st.scale)

/-- Claim C2: in training mode the moving-average estimator computes
`current_max = max(abs(x))`, `new_accum = moving_rate * accum + current_max`,
`new_state = moving_rate * state + 1`, `new_scale = new_accum / new_state`,
persists all three and returns `new_scale`; `accum` and `state` start at
`1.0`. -/
theorem movingAverageEstimator_training_spec :
    (∀ (rate : ℚ) (st : MAState) (x : List ℚ),
      movingAverageEstimatorUpdate rate true st x =
        ({ scale := (rate * st.accum + maxAbs x) / (rate * st.state + 1),
           accum := rate * st.accum + maxAbs x,
           state := rate * st.state + 1 },
         (rate * st.accum + maxAbs x) / (rate * st.state + 1))) ∧
    initFakeQuantMovingAverage.accum = 1 ∧ initFakeQuantMovingAverage.state = 1 := by
  exact ⟨fun rate st x => rfl, rfl, rfl⟩

/-- Claim C5: with `training = false`, two successive calls of the
moving-average estimator on arbitrary (possibly different) inputs both
return the persisted scale and mutate none of `scale`, `accum`, `state`. -/
theorem movingAverageEstimator_eval_freeze (rate : ℚ) (st : MAState)
    (x1 x2 : List ℚ) :
    (movingAverageEstimatorUpdate rate false st x1).2 = st.scale ∧
    (movingAverageEstimatorUpdate rate false
        (movingAverageEstimatorUpdate rate false st x1).1 x2).2 = st.scale ∧
    (movingAverageEstimatorUpdate rate false st x1).1 = st ∧
    (movingAverageEstimatorUpdate rate false
        (movingAverageEstimatorUpdate rate false st x1).1 x2).1 = st :=
  ⟨rfl, rfl, rfl, rfl⟩

theorem one_le_qRange {b : ℕ} (hb : 2 ≤ b) : 1 ≤ qRange b := by
  have h : 1 < 2 ^ (b - 1) := by
    have h0 : b - 1 = b - 2 + 1 := by omega
    rw [h0]
    exact Nat.one_lt_two_pow' (b - 2)
  have h3 : (2 : ℤ) ≤ (2 : ℤ) ^ (b - 1) := by exact_mod_cast h
  rw [qRange]
  linarith

/-- Claim C3 counterexample: as stated, the round-trip bound fails for bit
length `b = 1` (there `range = 2^0 - 1 = 0`, so the bound `s / range`
degenerates): at `s = 1`, `x = 1` the hypotheses hold but the bound does
not. -/
theorem fakeQuantDequant_roundTrip_cex :
    (0 : ℚ) < 1 ∧ |(1 : ℚ)| ≤ 1 ∧
    ¬ |fakeQuantDequant 1 1 1 - 1| ≤ 1 / ((qRange 1 : ℤ) : ℚ) := by
  refine ⟨by norm_num, by norm_num, ?_⟩
  norm_num [fakeQuantDequant, clamp, qRange, roundQ_eq, max_def, min_def]

/-- Claim C3 (amended to bit lengths `b ≥ 2`, so that `range ≥ 1`): for
every scale `s > 0` and input `x` with `|x| ≤ s`, the fake
quantize-dequantize output satisfies `|x_out - x| ≤ s / range` with
`range = 2^(b-1) - 1`. -/
theorem fakeQuantDequant_roundTrip (s : ℚ) (b : ℕ) (x : ℚ)
    (hs : 0 < s) (hb : 2 ≤ b) (hx : |x| ≤ s) :
    |fakeQuantDequant s b x - x| ≤ s / ((qRange b : ℤ) : ℚ) := by
  have hs0 : s ≠ 0 := hs.ne'
  have hR1 : (1 : ℚ) ≤ ((qRange b : ℤ) : ℚ) := by exact_mod_cast one_le_qRange hb
  have hR0 : (0 : ℚ) < ((qRange b : ℤ) : ℚ) := lt_of_lt_of_le zero_lt_one hR1
  have hclamp : clamp (-1) 1 (x / s) = x / s := by
    have h1 : x / s ≤ 1 := by
      rw [div_le_one hs]
      exact (abs_le.mp hx).2
    have h2 : -1 ≤ x / s := by
      rw [le_div_iff₀ hs]
      have := (abs_le.mp hx).1
      linarith
    rw [clamp, min_eq_right h1, max_eq_right h2]
  rw [fakeQuantDequant, if_neg hs0, hclamp, roundQ_eq]
  have hfac :
      (round (x / s * ((qRange b : ℤ) : ℚ)) : ℚ) * s / ((qRange b : ℤ) : ℚ) - x =
        ((round (x / s * ((qRange b : ℤ) : ℚ)) : ℚ) - x / s * ((qRange b : ℤ) : ℚ))
          * (s / ((qRange b : ℤ) : ℚ)) := by
    field_simp
    ring
  rw [hfac, abs_mul, abs_of_pos (div_pos hs hR0)]
  have h12 : |(round (x / s * ((qRange b : ℤ) : ℚ)) : ℚ) - x / s * ((qRange b : ℤ) : ℚ)| ≤
      1 / 2 := by
    rw [abs_sub_comm]
    exact abs_sub_round _
  have hsR : 0 ≤ s / ((qRange b : ℤ) : ℚ) := le_of_lt (div_pos hs hR0)
  calc |(round (x / s * ((qRange b : ℤ) : ℚ)) : ℚ) - x / s * ((qRange b : ℤ) : ℚ)|
        * (s / ((qRange b : ℤ) : ℚ))
      ≤ 1 / 2 * (s / ((qRange b : ℤ) : ℚ)) := mul_le_mul_of_nonneg_right h12 hsR
    _ ≤ s / ((qRange b : ℤ) : ℚ) := by linarith

/-- Concrete instantiation of the amended claim C3 at `s = 3`, `b = 8`,
`x = 2`. -/
theorem fakeQuantDequant_roundTrip_witness :
    (0 : ℚ) < 3 ∧ 2 ≤ 8 ∧ |(2 : ℚ)| ≤ 3 ∧
    |fakeQuantDequant 3 8 2 - 2| ≤ 3 / ((qRange 8 : ℤ) : ℚ) :=
  ⟨by norm_num, by norm_num, by norm_num,
    fakeQuantDequant_roundTrip 3 8 2 (by norm_num) (by norm_num) (by norm_num)⟩

/-- Claim C4: a zero scale makes the fake quantize-dequantize transform
return `0` for the affected element (no division by zero is performed; the
guard returns `0` directly). -/
theorem fakeQuantDequant_zero_scale (b : ℕ) (x : ℚ) :
    fakeQuantDequant 0 b x = 0 := by
  simp [fakeQuantDequant]

/-- A tensor in row-major layout: a shape and the flat element data. -/
structure Tensor where
  shape : List ℕ
  data : List ℚ
deriving Repr

/-- The size of a tensor shape along `axis`. -/
def axisSize (shape : List ℕ) (axis : ℕ) : ℕ :=
  shape.getD axis 0

/-- The stride of `axis` in row-major layout: the number of consecutive
flat positions per increment of the index along `axis`. -/
def axisStride (shape : List ℕ) (axis : ℕ) : ℕ :=
  (shape.drop (axis + 1)).prod

/-- The index along `axis` of the element stored at flat position `p`. -/
def axisIndexOf (shape : List ℕ) (axis p : ℕ) : ℕ :=
  p / axisStride shape axis % axisSize shape axis

/-- Brute-force slice: the elements of channel `i` along `axis`, i.e. all
data entries whose flat position maps to axis index `i`. -/
def channelSlice (t : Tensor) (axis i : ℕ) : List ℚ :=
  ((t.data.enum).filter (fun pa => axisIndexOf t.shape axis pa.1 = i)).map Prod.snd

/-- Modelled from the spec: the per-channel scale computation of the
`fake_channel_wise_quantize_dequantize_abs_max` kernel, which is dispatched
to by `FakeChannelWiseQuantDequantAbsMax.forward` but is not among these
sources: a single pass over the flat data accumulating the running max-abs
of each channel along `quant_axis`. -/
def channelWiseAbsMaxScales (t : Tensor) (axis : ℕ) : List ℚ :=
  t.data.enum.foldl
    (fun acc pa =>
      acc.set (axisIndexOf t.shape axis pa.1)
        (max (acc.getD (axisIndexOf t.shape axis pa.1) 0) |pa.2|))
    (List.replicate (axisSize t.shape axis) 0)

theorem map_range_getD (C j : ℕ) (g : ℕ → ℚ) (hj : j < C) :
    ((List.range C).map g).getD j 0 = g j := by
  rw [List.getD_eq_getElem _ _ (by simpa using hj)]
  simp

theorem map_range_set (C j : ℕ) (g : ℕ → ℚ) (v : ℚ) :
    ((List.range C).map g).set j v = (List.range C).map (Function.update g j v) := by
  apply List.ext_getElem
  · simp
  · intro i h1 h2
    simp only [List.getElem_set, List.getElem_map, List.getElem_range,
      Function.update_apply]
    by_cases hij : j = i
    · simp [hij]
    · rw [if_neg hij, if_neg (fun h => hij h.symm)]

theorem foldl_set_max (C : ℕ) (ch : ℕ → ℕ) (hch : ∀ p, ch p < C)
    (L : List (ℕ × ℚ)) (g : ℕ → ℚ) :
    L.foldl
        (fun acc pa => acc.set (ch pa.1) (max (acc.getD (ch pa.1) 0) |pa.2|))
        ((List.range C).map g) =
      (List.range C).map (fun i =>
        ((L.filter (fun pa => ch pa.1 = i)).map Prod.snd).foldl
          (fun m a => max m |a|) (g i)) := by
  induction L generalizing g with
  | nil => simp
  | cons pa L ih =>
    rw [List.foldl_cons, map_range_getD C _ g (hch pa.1), map_range_set, ih]
    apply List.map_congr_left
    intro i hi
    by_cases hcase : ch pa.1 = i
    · subst hcase
      simp [List.filter_cons]
    · simp [List.filter_cons, hcase, Function.update_noteq (fun h => hcase h.symm)]

theorem foldl_set_nil (f : ℕ ×  ℚ → ℕ) (L : List (ℕ × ℚ)) :
    L.foldl (fun acc pa => acc.set (f pa) (max (acc.getD (f pa) 0) |pa.2|))
      ([] : List ℚ) = [] := by
  induction L with
  | nil => rfl
  | cons pa L ih => simpa using ih

theorem channelWiseAbsMaxScales_eq_brute (t : Tensor) (axis : ℕ) :
    channelWiseAbsMaxScales t axis =
      (List.range (axisSize t.shape axis)).map (fun i => maxAbs (channelSlice t axis i)) := by
  by_cases hC : axisSize t.shape axis = 0
  · rw [channelWiseAbsMaxScales, hC]
    simpa using foldl_set_nil (fun pa => axisIndexOf t.shape axis pa.1) t.data.enum
  · have hch : ∀ p, axisIndexOf t.shape axis p < axisSize t.shape axis :=
      fun p => Nat.mod_lt _ (Nat.pos_of_ne_zero hC)
    have hrep : List.replicate (axisSize t.shape axis) (0 : ℚ) =
        (List.range (axisSize t.shape axis)).map (fun _ => 0) := by
      simp
    rw [channelWiseAbsMaxScales, hrep,
      foldl_set_max (axisSize t.shape axis) (fun p => axisIndexOf t.shape axis p) hch]
    rfl

/-- Claim C6: for an input tensor whose size along the quantization axis is
the channel count `C`, the channel-wise abs-max estimator produces a scale
vector of length exactly `C` whose `i`-th entry is the max-abs over all
elements of channel `i` (the brute-force per-channel max). -/
theorem channelWiseAbsMax_spec (t : Tensor) (axis C : ℕ)
    (hC : axisSize t.shape axis = C) :
    (channelWiseAbsMaxScales t axis).length = C ∧
    ∀ (i : ℕ) (hi : i < (channelWiseAbsMaxScales t axis).length),
      (channelWiseAbsMaxScales t axis).get ⟨i, hi⟩ = maxAbs (channelSlice t axis i) := by
  constructor
  · rw [channelWiseAbsMaxScales_eq_brute]
    simp [hC]
  · intro i hi
    rw [List.get_eq_getElem, List.getElem_of_eq (channelWiseAbsMaxScales_eq_brute t axis) hi]
    simp

/-- Concrete instantiation of claim C6 on a `2 × 3` tensor with
`quant_axis = 0`: the scale vector is `[3, 6]`, of length `2`. -/
theorem channelWiseAbsMax_spec_witness :
    axisSize ([2, 3] : List ℕ) 0 = 2 ∧
    (channelWiseAbsMaxScales ⟨[2, 3], [1, -2, 3, -4, 5, -6]⟩ 0).length = 2 ∧
    channelWiseAbsMaxScales ⟨[2, 3], [1, -2, 3, -4, 5, -6]⟩ 0 = [3, 6] :=
  ⟨rfl, (channelWiseAbsMax_spec ⟨[2, 3], [1, -2, 3, -4, 5, -6]⟩ 0 2 rfl).1, by
    norm_num [channelWiseAbsMaxScales, axisIndexOf, axisStride, axisSize,
      List.enum, List.enumFrom, List.replicate, List.set, max_def]⟩

/-- Configuration held by a successfully constructed
`FakeChannelWiseQuantDequantAbsMax` layer. -/
structure ChannelWiseState where
  channel_num : Option ℕ
  quant_bits : ℕ
  quant_axis : ℕ
deriving DecidableEq, Repr

/-- `FakeChannelWiseQuantDequantAbsMax.__init__`: the first statement
asserts `quant_on_weight == True` ("Channel_wise only can be used on weight
quantization."), so construction fails before anything else happens when
the estimator is requested for activations. -/
def mkFakeChannelWiseQuantDequantAbsMax (channel_num : Option ℕ)
    (quant_bits quant_axis : ℕ) (quant_on_weight : Bool) :
    Except String ChannelWiseState :=
  if quant_on_weight = true then
    Except.ok { channel_num := channel_num, quant_bits := quant_bits, quant_axis := quant_axis }
  else
    Except.error "Channel_wise only can be used on weight quantization."

/-- `_get_fake_quant_type` for the `channel_wise_abs_max` strategy: asserts
that a `channel_num` was supplied before invoking the constructor. -/
def getFakeQuantTypeChannelWise (quant_on_weight : Bool) (channel_num : Option ℕ)
    (quant_axis quant_bits : ℕ) : Except String ChannelWiseState :=
  match channel_num with
  | none =>
    Except.error "You need to input channel_num when you use channel_wise_abs_max strategy."
  | some c =>
    mkFakeChannelWiseQuantDequantAbsMax (some c) quant_bits quant_axis quant_on_weight

/-- Claim C7: constructing a channel-wise estimator with
`quant_on_weight = False` fails at construction time, and requesting one
through `_get_fake_quant_type` without a `channel_num` fails likewise,
before any forward call can happen. -/
theorem channelWise_construction_rejection :
    (∀ (channel_num : Option ℕ) (quant_bits quant_axis : ℕ),
      ∃ msg, mkFakeChannelWiseQuantDequantAbsMax channel_num quant_bits quant_axis false =
        Except.error msg) ∧
    (∀ (quant_on_weight : Bool) (quant_axis quant_bits : ℕ),
      ∃ msg, getFakeQuantTypeChannelWise quant_on_weight none quant_axis quant_bits =
        Except.error msg) :=
  ⟨fun _ _ _ => ⟨_, rfl⟩, fun _ _ _ => ⟨_, rfl⟩⟩

/-- Symbolic terms tracing the forward pass of the quantized affine layers:
the externally provided operations are uninterpreted constructors, so a
term records exactly which operations are applied and in which order they
are nested around the input and the weight. -/
inductive QTerm where
  | input : QTerm
  | weight : QTerm
  | actPre : QTerm → QTerm
  | fakeQuantInput : QTerm → QTerm
  | weightPre : QTerm → QTerm
  | fakeQuantWeight : QTerm → QTerm
  | conv2d : QTerm → QTerm → QTerm
  | matmul : QTerm → QTerm → QTerm
  | addBias : QTerm → ℕ → QTerm
  | applyAct : QTerm → QTerm
deriving DecidableEq, Repr

/-- `QuantizedConv2D.forward`: preprocess the input if an
`_act_preprocess` layer is configured, fake-quantize it, preprocess the
weight if a `_weight_preprocess` layer is configured, fake-quantize it, run
`conv2d`, append the bias (axis 1) if present, then append the activation. -/
def quantizedConv2DForward (hasActPre hasWeightPre hasBias : Bool) : QTerm :=
  let processedInput := if hasActPre then QTerm.actPre QTerm.input else QTerm.input
  let quantInput := QTerm.fakeQuantInput processedInput
  let processedWeight := if hasWeightPre then QTerm.weightPre QTerm.weight else QTerm.weight
  let quantWeight := QTerm.fakeQuantWeight processedWeight
  let preBias := QTerm.conv2d quantInput quantWeight
  let preAct := if hasBias then QTerm.addBias preBias 1 else preBias
  QTerm.applyAct preAct

/-- `QuantizedLinear.forward`: the same pipeline with `matmul` and the bias
broadcast along `len(input.shape) - 1`, the last axis of the input. -/
def quantizedLinearForward (hasActPre hasWeightPre hasBias : Bool)
    (inputRank : ℕ) : QTerm :=
  let processedInput := if hasActPre then QTerm.actPre QTerm.input else QTerm.input
  let quantInput := QTerm.fakeQuantInput processedInput
  let processedWeight := if hasWeightPre then QTerm.weightPre QTerm.weight else QTerm.weight
  let quantWeight := QTerm.fakeQuantWeight processedWeight
  let preBias := QTerm.matmul quantInput quantWeight
  let preAct := if hasBias then QTerm.addBias preBias (inputRank - 1) else preBias
  QTerm.applyAct preAct

/-- Claim C8: both quantized affine layers compose, in order: optional
activation preprocess, input fake-quantization, optional weight preprocess,
weight fake-quantization, the affine primitive on the two fake-quantized
tensors, the optional bias broadcast along axis 1 (conv) or the last input
axis (matmul), and finally the activation. -/
theorem quantizedAffine_forward_order :
    ∀ (a w bias : Bool) (r : ℕ),
      quantizedConv2DForward a w bias =
        QTerm.applyAct
          (cond bias (fun t => QTerm.addBias t 1) id
            (QTerm.conv2d
              (QTerm.fakeQuantInput (cond a QTerm.actPre id QTerm.input))
              (QTerm.fakeQuantWeight (cond w QTerm.weightPre id QTerm.weight)))) ∧
      quantizedLinearForward a w bias r =
        QTerm.applyAct
          (cond bias (fun t => QTerm.addBias t (r - 1)) id
            (QTerm.matmul
              (QTerm.fakeQuantInput (cond a QTerm.actPre id QTerm.input))
              (QTerm.fakeQuantWeight (cond w QTerm.weightPre id QTerm.weight)))) := by
  intro a w bias r
  cases a <;> cases w <;> cases bias <;> exact ⟨rfl, rfl⟩

/-- From the source: `FakeQuantAbsMax` always marks the scale variable with
`stop_gradient`, both the persistent parameter created in quant-on-weight
mode and the fresh scale variable created in the forward pass otherwise. -/
def fakeQuantAbsMaxScaleStopGradient (quant_on_weight : Bool) : Bool :=
  if quant_on_weight then true else true

/-- Modelled from the spec: the backward rule of the fake
quantize-dequantize transform (the gradient kernel paired with
`fake_quantize_dequantize_abs_max`, not among these sources): the
straight-through estimator passes the incoming output gradient through to
`x` with factor `1` and propagates nothing to the scale. -/
def fakeQuantDequantBackward (dout : ℚ) : ℚ × ℚ :=
  (1 * dout, 0)

/-- Claim C9: the fake-quantize transform is the identity for gradient
flow: the gradient reaching `x` is `1 * dout`, the gradient reaching the
scale is `0`, and the scale variable is marked `stop_gradient` in both
construction modes. -/
theorem fakeQuant_straight_through :
    (∀ dout : ℚ, (fakeQuantDequantBackward dout).1 = dout ∧
      (fakeQuantDequantBackward dout).2 = 0) ∧
    ∀ quant_on_weight : Bool, fakeQuantAbsMaxScaleStopGradient quant_on_weight = true := by
  exact ⟨fun dout => ⟨one_mul dout, rfl⟩, fun q => by cases q <;> rfl⟩

/-- Initial state of `MovingAverageAbsMaxScale` from its `__init__`:
`scale`, `state` and `accum` are all initialized with `Constant(1)`. -/
def initMovingAverageAbsMaxScale : MAState :=
  { scale := 1, accum := 1, state := 1 }

/-- Modelled from the spec: `MovingAverageAbsMaxScale.forward` via the
`moving_average_abs_max_scale` kernel (not among these sources): the same
accum/state moving-average update as the moving-average estimator, but the
layer returns the scale; the observed tensor is neither transformed nor
returned. -/
def movingAverageAbsMaxScaleForward (rate : ℚ) (training : Bool) (st : MAState)
    (x : List ℚ) : MAState × ℚ :=
  if training then
    let newAccum := rate * st.accum + maxAbs x
    let newState := rate * st.state + 1
    ({ scale := newAccum / newState, accum := newAccum, state := newState },
      newAccum / newState)
  else (st, st.scale)

/-- Claim C10: `MovingAverageAbsMaxScale.forward` performs exactly the same
accum/state moving-average update as the moving-average estimator, and its
return value is the (updated) persisted scale, not the observed tensor. -/
theorem movingAverageAbsMaxScale_forward_spec :
    ∀ (rate : ℚ) (training : Bool) (st : MAState) (x : List ℚ),
      movingAverageAbsMaxScaleForward rate training st x =
        movingAverageEstimatorUpdate rate training st x ∧
      (movingAverageAbsMaxScaleForward rate training st x).2 =
        (movingAverageAbsMaxScaleForward rate training st x).1.scale := by
  intro rate training st x
  cases training <;> exact ⟨rfl, rfl⟩

end QuantNN
